import Mathlib

/-!
Formalization of the NeoFS SDK service-message trust layer: the signing and
recursive (matryoshka) verification protocol of the client package
(signServiceMessage, verifyServiceMessage, verifyMatryoshkaLevel,
serviceMessageBody) together with the signature-scheme registry
(neofscrypto.RegisterScheme).

Modelling conventions: Go byte slices are `List Int`; Go nil pointers and nil
interface values are `Option`; the mutation of a message by the signing
protocol is explicit state passing (the function returns the updated message);
the fatal, unrecoverable path of the message-body dispatcher is the `none`
value of its `Option` result; errors are a symbolic inductive mirroring the
wrapping structure produced by the Go error constructors.
-/

namespace NeoFS

/-- Byte strings (Go byte slices). -/
abbrev Bytes := List Int

/-- Scheme is the int32-coded signature-scheme identifier of neofscrypto. -/
abbrev Scheme := Int

/-- Sig models refs.Signature: scheme identifier, binary-encoded public key and
signature bytes. -/
structure Sig where
  scheme : Scheme
  key : Bytes
  sig : Bytes
deriving DecidableEq, Repr

/-- Body models the kind-specific message body reached through GetBody; only
its stable serialization matters to the protocols. -/
structure Body where
  data : Bytes
deriving DecidableEq, Repr

/-- MetaHdr models session.RequestMetaHeader and session.ResponseMetaHeader:
header fields plus an optional nested origin meta header. The constructor
`root` models a header whose origin pointer is nil and `wrapped` one whose
origin pointer is set. -/
inductive MetaHdr where
  | root (fields : Bytes)
  | wrapped (fields : Bytes) (origin : MetaHdr)
deriving DecidableEq, Repr

/-- VerifHdr models session.RequestVerificationHeader and
session.ResponseVerificationHeader: three optional signature slots plus an
origin pointer. The constructor `innermost` models a header whose origin
pointer is nil and `upper` one whose origin pointer is set. -/
inductive VerifHdr where
  | innermost (bodySig metaSig originSig : Option Sig)
  | upper (bodySig metaSig originSig : Option Sig) (origin : VerifHdr)
deriving DecidableEq, Repr

/-- GetBodySignature through the nil-safe wrapper around a possibly-nil
verification header. -/
def getBodySignature : Option VerifHdr → Option Sig
  | none => none
  | some (.innermost b _ _) => b
  | some (.upper b _ _ _) => b

/-- GetMetaSignature through the nil-safe wrapper. -/
def getMetaSignature : Option VerifHdr → Option Sig
  | none => none
  | some (.innermost _ m _) => m
  | some (.upper _ m _ _) => m

/-- GetOriginSignature through the nil-safe wrapper. -/
def getOriginSignature : Option VerifHdr → Option Sig
  | none => none
  | some (.innermost _ _ o) => o
  | some (.upper _ _ o _) => o

/-- getOrigin of requestVerificationHeader and responseVerificationHeader: the
nested origin verification header, or none when the origin pointer is nil. -/
def vhOrigin : Option VerifHdr → Option VerifHdr
  | none => none
  | some (.innermost _ _ _) => none
  | some (.upper _ _ _ o) => some o

/-- getOrigin of requestMetaHeader and responseMetaHeader: these wrappers are
nil-safe, a nil header or a nil origin pointer both yield the empty wrapped
header (serialized as zero-length data). -/
def metaOrigin : Option MetaHdr → Option MetaHdr
  | none => none
  | some (.root _) => none
  | some (.wrapped _ o) => some o

/-- Modelled from the spec: stable protobuf marshaling of a signature message
is owned by the external protocol schema; the protocols depend only on it
being a deterministic encoding of the three logical fields. -/
def Sig.serialize (s : Sig) : Bytes :=
  s.scheme :: ((s.key.length : Int) :: s.key ++ (s.sig.length : Int) :: s.sig)

/-- Modelled from the spec: an absent optional signature field contributes a
fixed absence marker to the enclosing stable marshaling. -/
def serializeOptSig : Option Sig → Bytes
  | none => [0]
  | some s => 1 :: s.serialize

/-- Modelled from the spec: stable marshaling of a verification header, a
deterministic encoding of its three slots and its origin chain. -/
def VerifHdr.serialize : VerifHdr → Bytes
  | .innermost b m o => serializeOptSig b ++ serializeOptSig m ++ serializeOptSig o ++ [0]
  | .upper b m o h => serializeOptSig b ++ serializeOptSig m ++ serializeOptSig o ++ 1 :: h.serialize

/-- StableMarshal of a possibly-nil verification header; a nil header
serializes to zero-length data (stableMarshalerWrapper on a nil part). -/
def serializeVH : Option VerifHdr → Bytes
  | none => []
  | some h => h.serialize

/-- Modelled from the spec: stable marshaling of a meta header, a deterministic
encoding of its fields and origin chain. -/
def MetaHdr.serialize : MetaHdr → Bytes
  | .root f => f ++ [0]
  | .wrapped f o => f ++ 1 :: o.serialize

/-- StableMarshal of a possibly-nil meta header; a nil header serializes to
zero-length data. -/
def serializeMeta : Option MetaHdr → Bytes
  | none => []
  | some h => h.serialize

/-- StableMarshal of a possibly-nil message body; a nil body serializes to
zero-length data. -/
def serializeBody : Option Body → Bytes
  | none => []
  | some b => b.data

/-- Err mirrors the error values of the Go code symbolically: `msg` is a plain
errors.New or fmt.Errorf leaf, `wrap` is fmt.Errorf with a context prefix
wrapping a cause, and `signErr` is the typed NewSignError wrapper (ErrSign). -/
inductive Err where
  | msg (s : String)
  | wrap (ctx : String) (cause : Err)
  | signErr (cause : Err)
deriving DecidableEq, Repr

deriving instance DecidableEq for Except

/-- Signer models neofscrypto.Signer: a fixed scheme, the binary encoding of
its public key (Public followed by Encode), and the Sign operation, which may
fail. -/
structure Signer where
  scheme : Scheme
  key : Bytes
  sign : Bytes → Except String Bytes

/-- VerifyFn models the verification reached through the scheme registry: given
the scheme identifier and encoded public key embedded in a signature, check the
signature bytes against the data (PublicKey.Verify after registry lookup and
Decode). -/
def VerifyFn := Scheme → Bytes → Bytes → Bytes → Bool

/-- GoodSigner says the Sign calls of the signer succeed and its signatures
verify under the given verification function: a valid signer. -/
def GoodSigner (vf : VerifyFn) (s : Signer) : Prop :=
  ∀ d, ∃ sg, s.sign d = .ok sg ∧ vf s.scheme s.key d sg = true

/-- Modelled from the spec: Signature.CalculateMarshalled of the crypto package
(not under src): serializes the payload (an absent part serializes to
zero-length data, never an error), invokes Sign of the signer, and packages the
scheme, the encoded public key and the signature bytes. The callers below pass
the already-serialized part. -/
def calculateMarshalled (signer : Signer) (partData : Bytes) : Except String Sig :=
  match signer.sign partData with
  | .error e => .error e
  | .ok sg => .ok ⟨signer.scheme, signer.key, sg⟩

/-- signServiceMessagePart computes the signature of one message part and hands
it to the slot writer of the caller; a computation failure is wrapped with the
calculate context. -/
def signServiceMessagePart (signer : Signer) (partData : Bytes) : Except Err Sig :=
  match calculateMarshalled signer partData with
  | .error e => .error (.wrap "calculate" (.msg e))
  | .ok s => .ok s

/-- Modelled from the spec: signature.VerifyDataWithSource of the external util
package: reads the serialized part, reconstructs the public key of the
signature through the scheme registry and checks the signature bytes against
the data; a missing signature or a failed check is an error. -/
def verifyDataWithSource (vf : VerifyFn) (data : Bytes) (sig : Option Sig) : Except Err Unit :=
  match sig with
  | none => .error (.msg "missing signature")
  | some s =>
    if vf s.scheme s.key data s.sig then .ok () else .error (.msg "invalid signature")

/-- verifyServiceMessagePart verifies one message part against the signature
read from the header slot. -/
def verifyServiceMessagePart (vf : VerifyFn) (partData : Bytes) (sig : Option Sig) : Except Err Unit :=
  verifyDataWithSource vf partData sig

/-- ReqKind enumerates the request message kinds of the body dispatch table of
serviceMessageBody, organized by service. -/
inductive ReqKind where
  | balance
  | sessionCreate
  | containerPut
  | containerDelete
  | containerGet
  | containerList
  | setExtendedACL
  | getExtendedACL
  | announceUsedSpace
  | objectPut
  | objectGet
  | objectHead
  | objectSearch
  | objectDelete
  | getRange
  | getRangeHash
  | localNodeInfo
  | networkInfo
  | snapshot
  | announceLocalTrust
  | announceIntermediateResult
deriving DecidableEq, Repr

/-- RespKind enumerates the response message kinds of the body dispatch table
of serviceMessageBody, organized by service. -/
inductive RespKind where
  | balance
  | sessionCreate
  | containerPut
  | containerDelete
  | containerGet
  | containerList
  | setExtendedACL
  | getExtendedACL
  | announceUsedSpace
  | objectPut
  | objectGet
  | objectHead
  | objectSearch
  | objectDelete
  | getRange
  | getRangeHash
  | localNodeInfo
  | networkInfo
  | snapshot
  | announceLocalTrust
  | announceIntermediateResult
deriving DecidableEq, Repr

/-- Msg is the uniform decomposition of a concrete service message: body
(GetBody), meta header (GetMetaHeader) and verification header
(GetVerificationHeader), each a possibly-nil pointer. -/
structure Msg where
  body : Option Body
  meta : Option MetaHdr
  vh : Option VerifHdr
deriving DecidableEq, Repr

/-- SvcMsg is a service message value handed to the protocols: a request of a
known kind, a response of a known kind, or a value of any other type (`unknown`
carries the type name that Go formats with the T verb). -/
inductive SvcMsg where
  | request (k : ReqKind) (m : Msg)
  | response (k : RespKind) (m : Msg)
  | unknown (tag : String)
deriving DecidableEq, Repr

/-- serviceMessageBody dispatches on the concrete message kind and returns its
body field; the `none` result models the fatal, unrecoverable default branch
(Go panic on an unsupported message type). -/
def serviceMessageBody : SvcMsg → Option (Option Body)
  | .request _ m => some m.body
  | .response _ m => some m.body
  | .unknown _ => none

/-- msgOf views a service message through the serviceRequest or serviceResponse
capability: the uniform part triple, or none for an unsupported type. -/
def msgOf : SvcMsg → Option Msg
  | .request _ m => some m
  | .response _ m => some m
  | .unknown _ => none

/-- setVerificationHeader replaces the verification header of a request or
response (SetVerificationHeader); it leaves an unsupported value unchanged. -/
def setVerificationHeader : SvcMsg → Option VerifHdr → SvcMsg
  | .request k m, v => .request k { m with vh := v }
  | .response k m, v => .response k { m with vh := v }
  | .unknown tag, _ => .unknown tag

/-- mkHeader builds the freshly allocated verification header: the three slots
as computed, then setOrigin with the prior header (a no-op when it is nil, so
the origin pointer of the new header stays nil). -/
def mkHeader (b m o : Option Sig) : Option VerifHdr → VerifHdr
  | none => .innermost b m o
  | some h => .upper b m o h

/-- signBuildHeader is the shared body of the serviceRequest and
serviceResponse branches of signServiceMessage: compute the body signature only
when no prior verification header exists, always compute the meta-header
signature and the origin signature (the prior header, nil serializing to
zero-length data), and assemble the new header. Each failure is wrapped with
the context of the part and with NewSignError. -/
def signBuildHeader (signer : Signer) (m : Msg) : Except Err VerifHdr :=
  let bodySigStep : Except Err (Option Sig) :=
    match m.vh with
    | none =>
      match signServiceMessagePart signer (serializeBody m.body) with
      | .error e => .error (.signErr (.wrap "body" e))
      | .ok s => .ok (some s)
    | some _ => .ok none
  match bodySigStep with
  | .error e => .error e
  | .ok bodySig =>
    match signServiceMessagePart signer (serializeMeta m.meta) with
    | .error e => .error (.signErr (.wrap "meta header" e))
    | .ok metaSig =>
      match signServiceMessagePart signer (serializeVH m.vh) with
      | .error e => .error (.signErr (.wrap "origin of verification header" e))
      | .ok originSig =>
        .ok (mkHeader bodySig (some metaSig) (some originSig) m.vh)

/-- signServiceMessage signs a request or response message: a nil message is a
no-op success, an unsupported type is a typed NewSignError, and otherwise the
new verification header is built and installed on the message. The updated
message is returned alongside the error slot; on failure the message is
returned unchanged (the header is installed only at the very end). -/
def signServiceMessage (signer : Signer) (msg : Option SvcMsg) : Option Err × Option SvcMsg :=
  match msg with
  | none => (none, none)
  | some (.unknown tag) =>
    (some (.signErr (.msg ("unsupported session message " ++ tag))), some (.unknown tag))
  | some (.request k m) =>
    match signBuildHeader signer m with
    | .error e => (some e, some (.request k m))
    | .ok h => (none, some (setVerificationHeader (.request k m) (some h)))
  | some (.response k m) =>
    match signBuildHeader signer m with
    | .error e => (some e, some (.response k m))
    | .ok h => (none, some (setVerificationHeader (.response k m) (some h)))

/-- verifyLevel is verifyMatryoshkaLevel on a non-nil verification header:
verify the meta signature against the serialized meta header, verify the origin
signature against the serialized nested origin (zero-length when absent), then
either check the body signature at the innermost level, or reject a body
signature at an upper level and recurse in lock-step with the meta origin
chain. -/
def verifyLevel (vf : VerifyFn) (bodyData : Bytes) : Option MetaHdr → VerifHdr → Except Err Unit
  | meta, .innermost bs ms os =>
    match verifyServiceMessagePart vf (serializeMeta meta) ms with
    | .error e => .error (.wrap "could not verify meta header" e)
    | .ok _ =>
      match verifyServiceMessagePart vf (serializeVH none) os with
      | .error e => .error (.wrap "could not verify origin of verification header" e)
      | .ok _ =>
        match verifyServiceMessagePart vf bodyData bs with
        | .error e => .error (.wrap "could not verify body" e)
        | .ok _ => .ok ()
  | meta, .upper bs ms os origin =>
    match verifyServiceMessagePart vf (serializeMeta meta) ms with
    | .error e => .error (.wrap "could not verify meta header" e)
    | .ok _ =>
      match verifyServiceMessagePart vf (serializeVH (some origin)) os with
      | .error e => .error (.wrap "could not verify origin of verification header" e)
      | .ok _ =>
        if bs.isSome then .error (.msg "body signature at the matryoshka upper level")
        else verifyLevel vf bodyData (metaOrigin meta) origin

/-- verifyMatryoshkaLevel on a possibly-nil verification header: the nil-safe
wrapper reads every slot of a nil header as nil and its origin as absent, so
the same three checks run with absent signatures and an absent origin. -/
def verifyMatryoshkaLevel (vf : VerifyFn) (bodyData : Bytes) (meta : Option MetaHdr)
    (verify : Option VerifHdr) : Except Err Unit :=
  match verify with
  | some v => verifyLevel vf bodyData meta v
  | none =>
    match verifyServiceMessagePart vf (serializeMeta meta) none with
    | .error e => .error (.wrap "could not verify meta header" e)
    | .ok _ =>
      match verifyServiceMessagePart vf (serializeVH none) none with
      | .error e => .error (.wrap "could not verify origin of verification header" e)
      | .ok _ =>
        match verifyServiceMessagePart vf bodyData none with
        | .error e => .error (.wrap "could not verify body" e)
        | .ok _ => .ok ()

/-- verifyServiceMessage resolves the body, the outermost meta header and the
outermost verification header of the message and verifies the matryoshka chain;
a nil message is a no-op success and an unsupported type is a plain error. -/
def verifyServiceMessage (vf : VerifyFn) (msg : Option SvcMsg) : Except Err Unit :=
  match msg with
  | none => .ok ()
  | some (.unknown tag) => .error (.msg ("unsupported session message " ++ tag))
  | some (.request _ m) => verifyMatryoshkaLevel vf (serializeBody m.body) m.meta m.vh
  | some (.response _ m) => verifyMatryoshkaLevel vf (serializeBody m.body) m.meta m.vh

/-- verificationHeaderOf reads GetVerificationHeader of a request or response
message; an unsupported or nil value has no header. -/
def verificationHeaderOf : Option SvcMsg → Option VerifHdr
  | some (.request _ m) => m.vh
  | some (.response _ m) => m.vh
  | _ => none

/-- lookupScheme models the read of the package-level scheme map of
neofscrypto: the constructor registered for a scheme, if any. -/
def lookupScheme {α : Type _} (s : Scheme) : List (Scheme × α) → Option α
  | [] => none
  | (k, v) :: rest => if k = s then some v else lookupScheme s rest

/-- registerScheme models RegisterScheme over an explicit registry state (the
package-level map of blank public key constructors): registering an already
registered scheme hits the fatal, unrecoverable path, modelled as `none`;
otherwise the mapping is extended. -/
def registerScheme {α : Type _} (scheme : Scheme) (f : α) (reg : List (Scheme × α)) :
    Option (List (Scheme × α)) :=
  match lookupScheme scheme reg with
  | some _ => none
  | none => some ((scheme, f) :: reg)

/-- registerAll folds registerScheme over a list of registrations, stopping at
the first fatal collision. -/
def registerAll {α : Type _} : List (Scheme × α) → List (Scheme × α) → Option (List (Scheme × α))
  | [], reg => some reg
  | (s, f) :: rest, reg =>
    match registerScheme s f reg with
    | none => none
    | some reg2 => registerAll rest reg2

/-- idSigner is a concrete signer of a toy identity scheme used as witness
input: signing echoes the data. -/
def idSigner : Signer := ⟨0, [7], fun d => .ok d⟩

/-- idVerify is the verification function of the toy identity scheme: a
signature is valid when it equals the data and was produced under scheme 0 with
key 7. -/
def idVerify : VerifyFn := fun sch key data s => sch == 0 && key == [7] && s == data

/-- failSigner is a concrete signer whose Sign call always fails; used to
exercise the failure paths of the signing protocol. -/
def failSigner : Signer := ⟨0, [7], fun _ => .error "boom"⟩

lemma idSigner_good : GoodSigner idVerify idSigner :=
  fun d => ⟨d, rfl, by simp [idVerify, idSigner]⟩

lemma signBuildHeader_verifies (vf : VerifyFn) (signer : Signer) (m : Msg)
    (hgood : GoodSigner vf signer)
    (hprior : m.vh = none ∨
      verifyMatryoshkaLevel vf (serializeBody m.body) (metaOrigin m.meta) m.vh = .ok ()) :
    ∃ h, signBuildHeader signer m = .ok h ∧
      verifyLevel vf (serializeBody m.body) m.meta h = .ok () := by
  obtain ⟨sm, hsm, hsmv⟩ := hgood (serializeMeta m.meta)
  obtain ⟨so, hso, hsov⟩ := hgood (serializeVH m.vh)
  rcases hvh : m.vh with _ | V1
  · obtain ⟨sb, hsb, hsbv⟩ := hgood (serializeBody m.body)
    rw [hvh] at hso hsov
    refine ⟨.innermost (some ⟨signer.scheme, signer.key, sb⟩)
      (some ⟨signer.scheme, signer.key, sm⟩) (some ⟨signer.scheme, signer.key, so⟩), ?_, ?_⟩
    · simp [signBuildHeader, hvh, signServiceMessagePart, calculateMarshalled, hsb, hsm, hso,
        mkHeader]
    · simp [verifyLevel, verifyServiceMessagePart, verifyDataWithSource, hsmv, hsov, hsbv]
  · rw [hvh] at hprior hso hsov
    have hok : verifyLevel vf (serializeBody m.body) (metaOrigin m.meta) V1 = .ok () := by
      rcases hprior with h1 | hok
      · exact absurd h1 (by simp)
      · simpa [verifyMatryoshkaLevel] using hok
    refine ⟨.upper none (some ⟨signer.scheme, signer.key, sm⟩)
      (some ⟨signer.scheme, signer.key, so⟩) V1, ?_, ?_⟩
    · simp [signBuildHeader, hvh, signServiceMessagePart, calculateMarshalled, hsm, hso, mkHeader]
    · simp [verifyLevel, verifyServiceMessagePart, verifyDataWithSource, hsmv, hsov, hok]

/-- C1 (corrected): signing then verifying succeeds for every valid signer on
every request or response that either carries no verification header yet, or
whose prior verification-header chain verifies against the origin chain of the
meta header (as relays guarantee by wrapping the meta header before
re-signing). -/
theorem signThenVerify_roundTrip (vf : VerifyFn) (signer : Signer) (msg : SvcMsg) (m : Msg)
    (hgood : GoodSigner vf signer) (hm : msgOf msg = some m)
    (hprior : m.vh = none ∨
      verifyMatryoshkaLevel vf (serializeBody m.body) (metaOrigin m.meta) m.vh = .ok ()) :
    (signServiceMessage signer (some msg)).1 = none ∧
    verifyServiceMessage vf (signServiceMessage signer (some msg)).2 = .ok () := by
  obtain ⟨h, hsign, hver⟩ := signBuildHeader_verifies vf signer m hgood hprior
  cases msg with
  | request k m0 =>
    have hm0 : m0 = m := by simpa [msgOf] using hm
    subst hm0
    simp [signServiceMessage, hsign, setVerificationHeader, verifyServiceMessage,
      verifyMatryoshkaLevel, hver]
  | response k m0 =>
    have hm0 : m0 = m := by simpa [msgOf] using hm
    subst hm0
    simp [signServiceMessage, hsign, setVerificationHeader, verifyServiceMessage,
      verifyMatryoshkaLevel, hver]
  | unknown tag => simp [msgOf] at hm

/-- C1 witness: the round-trip theorem applied to a concrete relayed message
whose meta header was wrapped in lock-step, under the toy identity scheme. -/
theorem signThenVerify_roundTrip_witness :
    GoodSigner idVerify idSigner ∧
    (signServiceMessage idSigner (some (.request .balance
      ⟨some ⟨[1, 2, 3]⟩, some (.wrapped [5] (.root [9])),
        some (.innermost (some ⟨0, [7], [1, 2, 3]⟩) (some ⟨0, [7], [9, 0]⟩)
          (some ⟨0, [7], []⟩))⟩))).1 = none ∧
    verifyServiceMessage idVerify (signServiceMessage idSigner (some (.request .balance
      ⟨some ⟨[1, 2, 3]⟩, some (.wrapped [5] (.root [9])),
        some (.innermost (some ⟨0, [7], [1, 2, 3]⟩) (some ⟨0, [7], [9, 0]⟩)
          (some ⟨0, [7], []⟩))⟩))).2 = .ok () := by
  refine ⟨idSigner_good, ?_⟩
  exact signThenVerify_roundTrip idVerify idSigner _ _ idSigner_good rfl (Or.inr (by decide))

/-- C1 counterexample: a balance request is signed once (successfully, and it
verifies), then signed again by the same valid signer without the meta header
being wrapped; the second signing succeeds but verification of the result
fails, so the round-trip claim does not hold for every already-signed
message. -/
theorem signThenVerify_counterexample :
    (signServiceMessage idSigner (some (.request .balance
      ⟨some ⟨[1, 2, 3]⟩, some (.root [9]), none⟩))).1 = none ∧
    verifyServiceMessage idVerify (signServiceMessage idSigner (some (.request .balance
      ⟨some ⟨[1, 2, 3]⟩, some (.root [9]), none⟩))).2 = .ok () ∧
    (signServiceMessage idSigner (signServiceMessage idSigner (some (.request .balance
      ⟨some ⟨[1, 2, 3]⟩, some (.root [9]), none⟩))).2).1 = none ∧
    verifyServiceMessage idVerify (signServiceMessage idSigner
      (signServiceMessage idSigner (some (.request .balance
        ⟨some ⟨[1, 2, 3]⟩, some (.root [9]), none⟩))).2).2 ≠ .ok () := by
  decide

/-- C2 (confirmed): a message whose outermost verification header carries both
a nested origin and a body signature fails verification with the distinct
structural error, not a cryptographic one, even when the meta and origin
signatures of that level verify and the body signature is cryptographically
valid against the serialized body. -/
theorem bodySignatureAtUpperLevel_structural (vf : VerifyFn) (msg : SvcMsg) (m : Msg)
    (bs : Sig) (ms os : Option Sig) (origin : VerifHdr)
    (hm : msgOf msg = some m)
    (hvh : m.vh = some (.upper (some bs) ms os origin))
    (hmeta : verifyServiceMessagePart vf (serializeMeta m.meta) ms = .ok ())
    (horig : verifyServiceMessagePart vf (serializeVH (some origin)) os = .ok ())
    (hbodyvalid : vf bs.scheme bs.key (serializeBody m.body) bs.sig = true) :
    verifyServiceMessage vf (some msg) =
      .error (.msg "body signature at the matryoshka upper level") := by
  cases msg with
  | request k m0 =>
    have hm0 : m0 = m := by simpa [msgOf] using hm
    subst hm0
    simp [verifyServiceMessage, verifyMatryoshkaLevel, hvh, verifyLevel, hmeta, horig]
  | response k m0 =>
    have hm0 : m0 = m := by simpa [msgOf] using hm
    subst hm0
    simp [verifyServiceMessage, verifyMatryoshkaLevel, hvh, verifyLevel, hmeta, horig]
  | unknown tag => simp [msgOf] at hm

/-- C2 witness: the structural-error theorem applied to a concrete request
whose outer header holds a nested origin together with a body signature that is
valid against the body. -/
theorem bodySignatureAtUpperLevel_structural_witness :
    verifyServiceMessage idVerify (some (.request .balance
      ⟨some ⟨[1, 2]⟩, some (.root [9]),
        some (.upper (some ⟨0, [7], [1, 2]⟩) (some ⟨0, [7], [9, 0]⟩)
          (some ⟨0, [7], [0, 0, 0, 0]⟩) (.innermost none none none))⟩)) =
      .error (.msg "body signature at the matryoshka upper level") :=
  bodySignatureAtUpperLevel_structural idVerify _ _ ⟨0, [7], [1, 2]⟩
    (some ⟨0, [7], [9, 0]⟩) (some ⟨0, [7], [0, 0, 0, 0]⟩) (.innermost none none none)
    rfl rfl (by decide) (by decide) (by decide)

lemma signBuildHeader_ok_shape (signer : Signer) (m : Msg) (h : VerifHdr)
    (hh : signBuildHeader signer m = .ok h) :
    ∃ sm so, signer.sign (serializeMeta m.meta) = .ok sm ∧
      signer.sign (serializeVH m.vh) = .ok so ∧
      ((m.vh = none ∧ ∃ sb, signer.sign (serializeBody m.body) = .ok sb ∧
          h = .innermost (some ⟨signer.scheme, signer.key, sb⟩)
            (some ⟨signer.scheme, signer.key, sm⟩) (some ⟨signer.scheme, signer.key, so⟩)) ∨
       (∃ V1, m.vh = some V1 ∧
          h = .upper none (some ⟨signer.scheme, signer.key, sm⟩)
            (some ⟨signer.scheme, signer.key, so⟩) V1)) := by
  unfold signBuildHeader signServiceMessagePart calculateMarshalled at hh
  rcases hvh : m.vh with _ | V1 <;> rw [hvh] at hh
  · rcases hb : signer.sign (serializeBody m.body) with eb | sb <;> rw [hb] at hh
    · simp at hh
    · rcases hm2 : signer.sign (serializeMeta m.meta) with em | sm <;> rw [hm2] at hh
      · simp at hh
      · rcases ho : signer.sign (serializeVH none) with eo | so <;> rw [ho] at hh
        · simp at hh
        · simp only [mkHeader, Except.ok.injEq] at hh
          exact ⟨sm, so, rfl, rfl, Or.inl ⟨rfl, sb, rfl, hh.symm⟩⟩
  · rcases hm2 : signer.sign (serializeMeta m.meta) with em | sm <;> rw [hm2] at hh
    · simp at hh
    · rcases ho : signer.sign (serializeVH (some V1)) with eo | so <;> rw [ho] at hh
      · simp at hh
      · simp only [mkHeader, Except.ok.injEq] at hh
        exact ⟨sm, so, rfl, rfl, Or.inr ⟨V1, rfl, hh.symm⟩⟩

/-- C3 (corrected): on every successful signing of a request or response, the
body-signature slot of the newly installed verification header is filled
exactly when the incoming message carried no verification header at all; any
existing header, whether or not its own origin sub-header is populated, leaves
the new body-signature slot empty. -/
theorem bodySignature_iff_noPriorHeader (signer : Signer) (msg : SvcMsg) (m : Msg)
    (hm : msgOf msg = some m)
    (hok : (signServiceMessage signer (some msg)).1 = none) :
    ((getBodySignature (verificationHeaderOf
        (signServiceMessage signer (some msg)).2)).isSome ↔ m.vh = none) := by
  cases msg with
  | request k m0 =>
    have hm0 : m0 = m := by simpa [msgOf] using hm
    subst hm0
    rcases hsb : signBuildHeader signer m0 with e | h
    · simp [signServiceMessage, hsb] at hok
    · obtain ⟨sm, so, _, _, hshape⟩ := signBuildHeader_ok_shape signer m0 h hsb
      rcases hshape with ⟨hvh, sb, _, hinner⟩ | ⟨V1, hvh, hupper⟩
      · subst hinner
        simp [signServiceMessage, hsb, setVerificationHeader, verificationHeaderOf,
          getBodySignature, hvh]
      · subst hupper
        simp [signServiceMessage, hsb, setVerificationHeader, verificationHeaderOf,
          getBodySignature, hvh]
  | response k m0 =>
    have hm0 : m0 = m := by simpa [msgOf] using hm
    subst hm0
    rcases hsb : signBuildHeader signer m0 with e | h
    · simp [signServiceMessage, hsb] at hok
    · obtain ⟨sm, so, _, _, hshape⟩ := signBuildHeader_ok_shape signer m0 h hsb
      rcases hshape with ⟨hvh, sb, _, hinner⟩ | ⟨V1, hvh, hupper⟩
      · subst hinner
        simp [signServiceMessage, hsb, setVerificationHeader, verificationHeaderOf,
          getBodySignature, hvh]
      · subst hupper
        simp [signServiceMessage, hsb, setVerificationHeader, verificationHeaderOf,
          getBodySignature, hvh]
  | unknown tag => simp [msgOf] at hm

/-- C3 witness: the amended criterion applied to a concrete fresh request,
whose new header does receive a body signature. -/
theorem bodySignature_iff_noPriorHeader_witness :
    (getBodySignature (verificationHeaderOf
      (signServiceMessage idSigner (some (.request .balance
        ⟨some ⟨[1, 2, 3]⟩, some (.root [9]), none⟩))).2)).isSome ↔
    (Msg.mk (some ⟨[1, 2, 3]⟩) (some (.root [9])) none).vh = none :=
  bodySignature_iff_noPriorHeader idSigner _ _ rfl (by decide)

/-- C3 counterexample: a request that already carries a verification header
whose origin sub-header is not populated; the claim demands a body signature in
the new header, but the successful signing leaves the new body-signature slot
empty. -/
theorem bodySignature_counterexample :
    (verificationHeaderOf (some (.request .balance
      ⟨some ⟨[1, 2, 3]⟩, some (.root [9]), some (.innermost none none none)⟩))).isSome ∧
    vhOrigin (verificationHeaderOf (some (.request .balance
      ⟨some ⟨[1, 2, 3]⟩, some (.root [9]), some (.innermost none none none)⟩))) = none ∧
    (signServiceMessage idSigner (some (.request .balance
      ⟨some ⟨[1, 2, 3]⟩, some (.root [9]), some (.innermost none none none)⟩))).1 = none ∧
    getBodySignature (verificationHeaderOf (signServiceMessage idSigner
      (some (.request .balance
        ⟨some ⟨[1, 2, 3]⟩, some (.root [9]), some (.innermost none none none)⟩))).2) = none := by
  decide

/-- C4 (corrected): signing a request with no prior verification header fills
the body-signature slot with the signature over the serialized body, the
meta-signature slot with the signature over the serialized meta header, the
origin-signature slot with the signature over zero-length data (the serialized
absent origin), and leaves the origin link absent. -/
theorem freshSign_headerShape (signer : Signer) (k : ReqKind) (b : Option Body)
    (meta : Option MetaHdr) (sb sm so : Bytes)
    (hb : signer.sign (serializeBody b) = .ok sb)
    (hm : signer.sign (serializeMeta meta) = .ok sm)
    (ho : signer.sign (serializeVH none) = .ok so) :
    signServiceMessage signer (some (.request k ⟨b, meta, none⟩)) =
      (none, some (.request k ⟨b, meta, some (.innermost
        (some ⟨signer.scheme, signer.key, sb⟩)
        (some ⟨signer.scheme, signer.key, sm⟩)
        (some ⟨signer.scheme, signer.key, so⟩))⟩)) := by
  simp [signServiceMessage, signBuildHeader, signServiceMessagePart, calculateMarshalled,
    hb, hm, ho, mkHeader, setVerificationHeader]

/-- C4 witness: the fresh-signing characterization applied to the toy identity
signer on a concrete request with an empty meta header. -/
theorem freshSign_headerShape_witness :
    signServiceMessage idSigner (some (.request .balance ⟨some ⟨[1, 2, 3]⟩, none, none⟩)) =
      (none, some (.request .balance ⟨some ⟨[1, 2, 3]⟩, none, some (.innermost
        (some ⟨0, [7], [1, 2, 3]⟩) (some ⟨0, [7], []⟩) (some ⟨0, [7], []⟩))⟩)) :=
  freshSign_headerShape idSigner .balance (some ⟨[1, 2, 3]⟩) none [1, 2, 3] [] [] rfl rfl rfl

/-- C4 counterexample: on a fresh signing of a request with body, empty meta
header and no prior verification header, the origin-signature slot of the
produced header is not empty as the claim states, but holds the signature over
the zero-length serialized absent origin. -/
theorem freshSign_originSignature_counterexample :
    (signServiceMessage idSigner (some (.request .balance
      ⟨some ⟨[1, 2, 3]⟩, none, none⟩))).1 = none ∧
    getOriginSignature (verificationHeaderOf (signServiceMessage idSigner
      (some (.request .balance ⟨some ⟨[1, 2, 3]⟩, none, none⟩))).2) ≠ none ∧
    getOriginSignature (verificationHeaderOf (signServiceMessage idSigner
      (some (.request .balance ⟨some ⟨[1, 2, 3]⟩, none, none⟩))).2) =
      some ⟨idSigner.scheme, idSigner.key, serializeVH none⟩ := by
  decide

lemma signBuildHeader_error_cases (signer : Signer) (m : Msg) (err : Err)
    (hh : signBuildHeader signer m = .error err) :
    (∃ e, err = .signErr (.wrap "body" (.wrap "calculate" (.msg e))) ∧ m.vh = none ∧
       signer.sign (serializeBody m.body) = .error e) ∨
    (∃ e, err = .signErr (.wrap "meta header" (.wrap "calculate" (.msg e))) ∧
       signer.sign (serializeMeta m.meta) = .error e) ∨
    (∃ e, err = .signErr (.wrap "origin of verification header" (.wrap "calculate" (.msg e))) ∧
       signer.sign (serializeVH m.vh) = .error e) := by
  unfold signBuildHeader signServiceMessagePart calculateMarshalled at hh
  rcases hvh : m.vh with _ | V1 <;> rw [hvh] at hh
  · rcases hb : signer.sign (serializeBody m.body) with eb | sb <;> rw [hb] at hh
    · simp only [Except.error.injEq] at hh
      exact Or.inl ⟨eb, hh.symm, rfl, rfl⟩
    · rcases hm2 : signer.sign (serializeMeta m.meta) with em | sm <;> rw [hm2] at hh
      · simp only [Except.error.injEq] at hh
        exact Or.inr (Or.inl ⟨em, hh.symm, rfl⟩)
      · rcases ho : signer.sign (serializeVH none) with eo | so <;> rw [ho] at hh
        · simp only [Except.error.injEq] at hh
          exact Or.inr (Or.inr ⟨eo, hh.symm, rfl⟩)
        · simp [mkHeader] at hh
  · rcases hm2 : signer.sign (serializeMeta m.meta) with em | sm <;> rw [hm2] at hh
    · simp only [Except.error.injEq] at hh
      exact Or.inr (Or.inl ⟨em, hh.symm, rfl⟩)
    · rcases ho : signer.sign (serializeVH (some V1)) with eo | so <;> rw [ho] at hh
      · simp only [Except.error.injEq] at hh
        exact Or.inr (Or.inr ⟨eo, hh.symm, rfl⟩)
      · simp [mkHeader] at hh

/-- C5 (confirmed): if any required signature computation fails, the signing of
a request or response aborts with a typed signing error whose context names the
failing part, and the message, in particular its verification header, is
returned unchanged. -/
theorem signFailure_allOrNothing (signer : Signer) (msg : SvcMsg) (m : Msg)
    (hm : msgOf msg = some m)
    (hfail : (m.vh = none ∧ ∃ e, signer.sign (serializeBody m.body) = .error e) ∨
             (∃ e, signer.sign (serializeMeta m.meta) = .error e) ∨
             (∃ e, signer.sign (serializeVH m.vh) = .error e)) :
    ∃ err, (signServiceMessage signer (some msg)).1 = some err ∧
      (signServiceMessage signer (some msg)).2 = some msg ∧
      ((∃ e, err = .signErr (.wrap "body" (.wrap "calculate" (.msg e))) ∧ m.vh = none ∧
          signer.sign (serializeBody m.body) = .error e) ∨
       (∃ e, err = .signErr (.wrap "meta header" (.wrap "calculate" (.msg e))) ∧
          signer.sign (serializeMeta m.meta) = .error e) ∨
       (∃ e, err = .signErr (.wrap "origin of verification header" (.wrap "calculate" (.msg e))) ∧
          signer.sign (serializeVH m.vh) = .error e)) := by
  cases msg with
  | request k m0 =>
    have hm0 : m0 = m := by simpa [msgOf] using hm
    subst hm0
    rcases hsb : signBuildHeader signer m0 with e | h
    · exact ⟨e, by simp [signServiceMessage, hsb], by simp [signServiceMessage, hsb],
        signBuildHeader_error_cases signer m0 e hsb⟩
    · exfalso
      obtain ⟨sm, so, hsm, hso, hshape⟩ := signBuildHeader_ok_shape signer m0 h hsb
      rcases hfail with ⟨hvh, e, he⟩ | ⟨e, he⟩ | ⟨e, he⟩
      · rcases hshape with ⟨_, sb, hsb2, _⟩ | ⟨V1, hvh2, _⟩
        · rw [he] at hsb2; simp at hsb2
        · rw [hvh] at hvh2; simp at hvh2
      · rw [he] at hsm; simp at hsm
      · rw [he] at hso; simp at hso
  | response k m0 =>
    have hm0 : m0 = m := by simpa [msgOf] using hm
    subst hm0
    rcases hsb : signBuildHeader signer m0 with e | h
    · exact ⟨e, by simp [signServiceMessage, hsb], by simp [signServiceMessage, hsb],
        signBuildHeader_error_cases signer m0 e hsb⟩
    · exfalso
      obtain ⟨sm, so, hsm, hso, hshape⟩ := signBuildHeader_ok_shape signer m0 h hsb
      rcases hfail with ⟨hvh, e, he⟩ | ⟨e, he⟩ | ⟨e, he⟩
      · rcases hshape with ⟨_, sb, hsb2, _⟩ | ⟨V1, hvh2, _⟩
        · rw [he] at hsb2; simp at hsb2
        · rw [hvh] at hvh2; simp at hvh2
      · rw [he] at hsm; simp at hsm
      · rw [he] at hso; simp at hso
  | unknown tag => simp [msgOf] at hm

/-- C5 witness: the all-or-nothing theorem applied to the always-failing signer
on a concrete fresh request. -/
theorem signFailure_allOrNothing_witness :
    ∃ err, (signServiceMessage failSigner (some (.request .balance
        ⟨some ⟨[1, 2, 3]⟩, some (.root [9]), none⟩))).1 = some err ∧
      (signServiceMessage failSigner (some (.request .balance
        ⟨some ⟨[1, 2, 3]⟩, some (.root [9]), none⟩))).2 =
        some (.request .balance ⟨some ⟨[1, 2, 3]⟩, some (.root [9]), none⟩) ∧
      ((∃ e, err = .signErr (.wrap "body" (.wrap "calculate" (.msg e))) ∧
          (Msg.mk (some ⟨[1, 2, 3]⟩) (some (.root [9])) none).vh = none ∧
          failSigner.sign (serializeBody (Msg.mk (some ⟨[1, 2, 3]⟩)
            (some (.root [9])) none).body) = .error e) ∨
       (∃ e, err = .signErr (.wrap "meta header" (.wrap "calculate" (.msg e))) ∧
          failSigner.sign (serializeMeta (Msg.mk (some ⟨[1, 2, 3]⟩)
            (some (.root [9])) none).meta) = .error e) ∨
       (∃ e, err = .signErr (.wrap "origin of verification header" (.wrap "calculate" (.msg e))) ∧
          failSigner.sign (serializeVH (Msg.mk (some ⟨[1, 2, 3]⟩)
            (some (.root [9])) none).vh) = .error e)) :=
  signFailure_allOrNothing failSigner _ _ rfl (Or.inl ⟨rfl, "boom", rfl⟩)

lemma registerAll_sound {α : Type _} :
    ∀ l reg : List (Scheme × α), (l.map Prod.fst).Nodup →
      (∀ s ∈ l.map Prod.fst, lookupScheme s reg = none) →
      ∃ reg2, registerAll l reg = some reg2 ∧
        (∀ t, t ∉ l.map Prod.fst → lookupScheme t reg2 = lookupScheme t reg) ∧
        (∀ p ∈ l, lookupScheme p.1 reg2 = some p.2) := by
  intro l
  induction l with
  | nil => exact fun reg _ _ => ⟨reg, rfl, fun _ _ => rfl, by simp⟩
  | cons hd tl ih =>
    intro reg hnd hfresh
    obtain ⟨s, f⟩ := hd
    simp only [List.map_cons] at hnd
    have hnotin : s ∉ tl.map Prod.fst := (List.nodup_cons.mp hnd).1
    have hnd2 : (tl.map Prod.fst).Nodup := (List.nodup_cons.mp hnd).2
    have hs : lookupScheme s reg = none := hfresh s (by simp)
    have hfresh2 : ∀ t ∈ tl.map Prod.fst, lookupScheme t ((s, f) :: reg) = none := by
      intro t ht
      have hts : ¬s = t := fun h => hnotin (h ▸ ht)
      have := hfresh t (by simp only [List.map_cons]; exact List.mem_cons_of_mem _ ht)
      simpa [lookupScheme, hts] using this
    obtain ⟨reg2, h1, h2, h3⟩ := ih ((s, f) :: reg) hnd2 hfresh2
    refine ⟨reg2, ?_, ?_, ?_⟩
    · simp [registerAll, registerScheme, hs, h1]
    · intro t ht
      have ht2 : ¬t = s ∧ t ∉ tl.map Prod.fst := by simpa [not_or] using ht
      have hst : ¬s = t := fun h => ht2.1 h.symm
      rw [h2 t ht2.2]
      simp [lookupScheme, hst]
    · intro p hp
      rcases List.mem_cons.mp hp with rfl | hp2
      · rw [h2 s hnotin]
        simp [lookupScheme]
      · exact h3 p hp2

/-- C6 (confirmed): registering an already registered scheme hits the fatal
path the second time, while registering any list of pairwise-distinct schemes
succeeds from the empty registry and each registered scheme then maps to the
constructor it was registered with. -/
theorem registerScheme_registry (α : Type) :
    (∀ (reg reg2 : List (Scheme × α)) (s : Scheme) (f g : α),
       registerScheme s f reg = some reg2 → registerScheme s g reg2 = none) ∧
    (∀ l : List (Scheme × α), (l.map Prod.fst).Nodup →
       ∃ reg, registerAll l [] = some reg ∧ ∀ p ∈ l, lookupScheme p.1 reg = some p.2) := by
  constructor
  · intro reg reg2 s f g hreg
    unfold registerScheme at hreg
    rcases hl : lookupScheme s reg with _ | v <;> rw [hl] at hreg
    · have hreg2 : (s, f) :: reg = reg2 := by simpa using hreg
      rw [← hreg2]
      simp [registerScheme, lookupScheme]
    · simp at hreg
  · intro l hnd
    obtain ⟨reg2, h1, _, h3⟩ := registerAll_sound l [] hnd (by intro s _; rfl)
    exact ⟨reg2, h1, h3⟩

/-- C6 witness: the registry theorem applied to concrete registrations, with a
repeated scheme rejected the second time and two distinct schemes looked up
successfully. -/
theorem registerScheme_registry_witness :
    registerScheme 0 (6 : Nat) [((0 : Scheme), (5 : Nat))] = none ∧
    ∃ reg, registerAll [((0 : Scheme), (5 : Nat)), (1, 6)] [] = some reg ∧
      ∀ p ∈ [((0 : Scheme), (5 : Nat)), (1, 6)], lookupScheme p.1 reg = some p.2 :=
  ⟨(registerScheme_registry Nat).1 [] [(0, 5)] 0 5 6 rfl,
   (registerScheme_registry Nat).2 [(0, 5), (1, 6)] (by decide)⟩

/-- C7 (confirmed): at a level whose nested origin header is absent, the
origin-signature check still runs against the zero-length serialized absent
origin, so a non-empty origin signature that does not validate against empty
data fails verification with the origin-of-verification-header error. -/
theorem originSignatureCheckedAgainstEmpty (vf : VerifyFn) (bodyData : Bytes)
    (meta : Option MetaHdr) (bs ms : Option Sig) (s : Sig)
    (hmeta : verifyServiceMessagePart vf (serializeMeta meta) ms = .ok ())
    (hbad : vf s.scheme s.key (serializeVH none) s.sig = false) :
    serializeVH none = [] ∧
    verifyMatryoshkaLevel vf bodyData meta (some (.innermost bs ms (some s))) =
      .error (.wrap "could not verify origin of verification header" (.msg "invalid signature")) := by
  refine ⟨rfl, ?_⟩
  simp only [verifyMatryoshkaLevel, verifyLevel, hmeta]
  simp [verifyServiceMessagePart, verifyDataWithSource, hbad]

/-- C7 witness: the empty-payload origin check applied to a concrete level with
a valid meta signature and an origin signature that does not validate against
empty data. -/
theorem originSignatureCheckedAgainstEmpty_witness :
    serializeVH none = [] ∧
    verifyMatryoshkaLevel idVerify [1, 2] (some (.root [9]))
      (some (.innermost none (some ⟨0, [7], [9, 0]⟩) (some ⟨0, [7], [3]⟩))) =
      .error (.wrap "could not verify origin of verification header" (.msg "invalid signature")) :=
  originSignatureCheckedAgainstEmpty idVerify [1, 2] (some (.root [9])) none
    (some ⟨0, [7], [9, 0]⟩) ⟨0, [7], [3]⟩ (by decide) (by decide)

/-- C8 (confirmed): the message-body dispatcher hits the fatal unrecoverable
path on every value outside the known message kinds, never silently yielding a
nil body, and returns the body field of every known request or response. -/
theorem serviceMessageBody_dispatch :
    (∀ tag, serviceMessageBody (.unknown tag) = none) ∧
    (∀ k m, serviceMessageBody (.request k m) = some m.body) ∧
    (∀ k m, serviceMessageBody (.response k m) = some m.body) :=
  ⟨fun _ => rfl, fun _ _ => rfl, fun _ _ => rfl⟩

/-- C9 (confirmed): a successful signing replaces only the verification header;
the resulting message is the input with a new header installed, its body and
meta header (hence the whole nested meta chain) unchanged. -/
theorem signSuccess_framesOnlyHeader (signer : Signer) (msg : SvcMsg) (m : Msg)
    (hm : msgOf msg = some m)
    (hok : (signServiceMessage signer (some msg)).1 = none) :
    ∃ h : VerifHdr, (signServiceMessage signer (some msg)).2 =
        some (setVerificationHeader msg (some h)) ∧
      ((signServiceMessage signer (some msg)).2.bind msgOf) = some { m with vh := some h } := by
  cases msg with
  | request k m0 =>
    have hm0 : m0 = m := by simpa [msgOf] using hm
    subst hm0
    rcases hsb : signBuildHeader signer m0 with e | h
    · simp [signServiceMessage, hsb] at hok
    · exact ⟨h, by simp [signServiceMessage, hsb],
        by simp [signServiceMessage, hsb, setVerificationHeader, msgOf]⟩
  | response k m0 =>
    have hm0 : m0 = m := by simpa [msgOf] using hm
    subst hm0
    rcases hsb : signBuildHeader signer m0 with e | h
    · simp [signServiceMessage, hsb] at hok
    · exact ⟨h, by simp [signServiceMessage, hsb],
        by simp [signServiceMessage, hsb, setVerificationHeader, msgOf]⟩
  | unknown tag => simp [msgOf] at hm

/-- C9 witness: the frame theorem applied to the toy identity signer on a
concrete fresh request. -/
theorem signSuccess_framesOnlyHeader_witness :
    ∃ h : VerifHdr, (signServiceMessage idSigner (some (.request .balance
        ⟨some ⟨[1, 2, 3]⟩, some (.root [9]), none⟩))).2 =
        some (setVerificationHeader (.request .balance
          ⟨some ⟨[1, 2, 3]⟩, some (.root [9]), none⟩) (some h)) ∧
      ((signServiceMessage idSigner (some (.request .balance
        ⟨some ⟨[1, 2, 3]⟩, some (.root [9]), none⟩))).2.bind msgOf) =
        some { Msg.mk (some ⟨[1, 2, 3]⟩) (some (.root [9])) none with vh := some h } :=
  signSuccess_framesOnlyHeader idSigner _ _ rfl (by decide)

/-- C10 (confirmed): an input value outside the request and response
capabilities makes signing return the typed signing error wrapping the
unsupported-session-message cause with the message unchanged, and makes
verification return the plain unsupported-session-message error; neither takes
the fatal path. -/
theorem unsupportedMessage_errors (signer : Signer) (vf : VerifyFn) (tag : String) :
    signServiceMessage signer (some (.unknown tag)) =
      (some (.signErr (.msg ("unsupported session message " ++ tag))), some (.unknown tag)) ∧
    verifyServiceMessage vf (some (.unknown tag)) =
      .error (.msg ("unsupported session message " ++ tag)) :=
  ⟨rfl, rfl⟩

end NeoFS
